import Mathlib

/-!
Verification of the pagination engine and the schema-tolerant response
decoder of the `curseforge-rs` client library, against a shallow Lean
embedding of the Rust source.

Machine integers are embedded as `Int` (for `i32`/`i64`) and `Nat`
(for `usize`), with the Rust `as` casts made explicit where they matter.
Fallible Rust code returning `Result` is embedded as `Except`.
-/

namespace Curseforge

/-- Embeds `Pagination` from `src/official/types/core.rs`: the pagination
descriptor reported by the remote API with each page. Fields `index`,
`page_size` and `result_count` are `i32`; `total_count` is `i64`. -/
structure Pagination where
  index : Int
  page_size : Int
  result_count : Int
  total_count : Int

/-- Embeds the constant `API_PAGINATION_RESULTS_LIMIT` from
`src/official/endpoints.rs`: the documented remote limit of 10,000
results per paginated query. -/
def API_PAGINATION_RESULTS_LIMIT : Nat := 10000

/-- Rust cast `x as usize` applied to a signed (`i32` or `i64`) value on a
64-bit target: reinterpretation modulo two to the power 64. For values in
the signed range this is `toNat` when nonnegative and a large wrapped
number when negative. -/
def i64AsUsize (x : Int) : Nat := (x % (2 : Int) ^ 64).toNat

/-- Rust cast `n as i32` applied to a `usize` value: two-complement
wraparound into the signed 32-bit range. -/
def usizeAsI32 (n : Nat) : Int := ((n : Int) + 2 ^ 31) % 2 ^ 32 - 2 ^ 31

/-- Embeds the shape shared by `GamesParams`, `ProjectSearchParams` and
`ProjectFilesParams` from `src/official/request/params.rs` as consumed by
the `pagination_delegate!` macro: each params struct has a field
`index : Option<i32>` holding the cursor offset, plus endpoint-specific
fields (and, for `ProjectFilesDelegate`, the extra `project_id` var) that
the macro never reads or writes; those are kept abstract in `rest`. -/
structure DelegateParams (R : Type) where
  index : Option Int
  rest : R

/-- Embeds `PaginatedDataResponse` from `src/official/request/response.rs`
as produced by a pager endpoint: the page records and the descriptor. -/
structure PageResponse (I : Type) where
  data : List I
  pagination : Pagination

/-- Embeds the state of a delegate generated by the `pagination_delegate!`
macro in `src/official/request/pagination.rs` (`GamesDelegate`,
`ProjectSearchDelegate`, `ProjectFilesDelegate`): the params (whose
`index` field is the cursor offset) and the last pagination descriptor.
The borrowed HTTP client, base URL and vars are captured by the `pager`
argument of `next_page`. -/
structure Delegate (R : Type) where
  params : DelegateParams R
  pagination : Option Pagination

namespace Delegate

/-- Embeds the generated constructor `new`: `params.index = params.index.or(Some(0))`,
`pagination: None`. -/
def new (params : DelegateParams R) : Delegate R :=
  { params := { params with index := params.index.or (some 0) }
    pagination := none }

/-- Embeds the generated `next_page`: call the pager with the current
params, propagate its error with `?` (leaving the state untouched), and on
success store the new descriptor and return the page records. The pager is
passed explicitly; in the source it is a fixed endpoint function closed
over the client, base URL and vars. -/
def next_page (d : Delegate R) (pager : DelegateParams R → Except E (PageResponse I)) :
    Except E (List I) × Delegate R :=
  match pager d.params with
  | .error e => (.error e, d)
  | .ok result => (.ok result.data, { d with pagination := some result.pagination })

/-- Embeds the generated `offset`: `self.params.index.unwrap() as usize`.
The `unwrap` panic is embedded as `none`. -/
def offset (d : Delegate R) : Option Nat :=
  d.params.index.map i64AsUsize

/-- Embeds the generated `set_offset`: `self.params.index = Some(value as i32)`. -/
def set_offset (d : Delegate R) (value : Nat) : Delegate R :=
  { d with params := { d.params with index := some (usizeAsI32 value) } }

/-- Embeds the generated `total_items`:
`self.pagination.as_ref().map(|p| usize::min(API_PAGINATION_RESULTS_LIMIT, p.total_count as usize))`. -/
def total_items (d : Delegate R) : Option Nat :=
  d.pagination.map fun pagination =>
    Nat.min API_PAGINATION_RESULTS_LIMIT (i64AsUsize pagination.total_count)

end Delegate

/-- Endpoint-specific fields of `GamesParams` other than `index`. -/
structure GamesParamsRest where
  page_size : Option Int

/-- Embeds `ModLoaderType` from `src/official/types/projects.rs`. -/
inductive ModLoaderType where
  | Any
  | Forge
  | Cauldron
  | LiteLoader
  | Fabric

/-- Embeds `SearchSort` from `src/official/request/params.rs`. -/
inductive SearchSort where
  | Featured
  | Popularity
  | LastUpdated
  | Name
  | Author
  | TotalDownloads
  | Category
  | GameVersion

/-- Embeds `SearchSortOrder` from `src/official/request/params.rs`. -/
inductive SearchSortOrder where
  | Ascending
  | Descending

/-- Endpoint-specific fields of `ProjectSearchParams` other than `index`. -/
structure ProjectSearchParamsRest where
  game_id : Int
  class_id : Option Int
  category_id : Option Int
  game_version : Option String
  search_filter : Option String
  sort_field : Option SearchSort
  sort_order : Option SearchSortOrder
  mod_loader_type : Option ModLoaderType
  game_version_type_id : Option Int
  slug : Option String
  page_size : Option Int

/-- Endpoint-specific fields of `ProjectFilesParams` other than `index`,
together with the `project_id` var bound by the macro invocation. -/
structure ProjectFilesParamsRest where
  project_id : Int
  game_version : Option String
  mod_loader_type : Option ModLoaderType
  game_version_type_id : Option Int
  page_size : Option Int

/-- The `GamesDelegate` instantiation of the `pagination_delegate!` macro. -/
abbrev GamesDelegate := Delegate GamesParamsRest

/-- The `ProjectSearchDelegate` instantiation of the `pagination_delegate!` macro. -/
abbrev ProjectSearchDelegate := Delegate ProjectSearchParamsRest

/-- The `ProjectFilesDelegate` instantiation of the `pagination_delegate!` macro. -/
abbrev ProjectFilesDelegate := Delegate ProjectFilesParamsRest

/-- Embeds the observable state of `PaginatedStream` from
`src/official/paginate.rs`: the shared `Rc<RefCell<Option<Pagination>>>`
cell (written after each successful request) and the constructor-supplied
`limit`. -/
structure PaginatedStream where
  pagination : Option Pagination
  limit : Nat

namespace PaginatedStream

/-- Embeds `PaginatedStream::new`: the pagination cell starts as `None`
until the first request succeeds; the limit is stored as given. -/
def new (limit : Nat) : PaginatedStream :=
  { pagination := none, limit := limit }

/-- Embeds `PaginatedStream::size_hint`: lower bound zero always; upper
bound `None` until a request has succeeded, then
`usize::min(self.limit, total_count as usize)`. -/
def size_hint (s : PaginatedStream) : Nat × Option Nat :=
  match s.pagination with
  | some p => (0, some (Nat.min s.limit (i64AsUsize p.total_count)))
  | none => (0, none)

end PaginatedStream

/-- Embeds `fixes::nullable_string` from `src/official/types/mod.rs`:
`Option::deserialize` has already turned a JSON null into `none` and a
JSON string into `some`; the fix then filters out the empty string. -/
def nullable_string (maybe : Option String) : Option String :=
  maybe.filter fun string => !string.isEmpty

/-- Embeds `nullable_str` from `src/official/types/game.rs`, which is
textually the same function as `fixes::nullable_string`. -/
def nullable_str (maybe : Option String) : Option String :=
  maybe.filter fun string => !string.isEmpty

/-- Embeds `fixes::nullable_datetime` from `src/official/types/mod.rs`.
The visitor receives the JSON string; the sentinel literal is mapped to
`none` before any parsing is attempted, any other string is handed to the
chrono parser (kept abstract here as `parse`, since chrono is an external
crate), and a parse failure becomes a custom deserialization error
carrying the message produced by chrono. -/
def nullable_datetime {DT : Type} (parse : String → Option DT) (string : String) :
    Except String (Option DT) :=
  if string = "0001-01-01T00:00:00" then .ok none
  else
    match parse string with
    | some d => .ok (some d)
    | none => .error ("invalid datetime " ++ string)

/-- One token of a `serde_path_to_error` path: a map key or a sequence index. -/
inductive PathTok where
  | field (name : String)
  | index (i : Nat)
deriving DecidableEq, Repr

/-- The payload of a path-tracking decode error: the token path from the
root of the payload to the failing location, and the underlying cause. -/
structure PathError where
  path : List PathTok
  cause : String
deriving DecidableEq, Repr

/-- A parsed JSON value, with objects as ordered key-value lists in the
style of `serde_json::Value`. -/
inductive Json where
  | null
  | bool (b : Bool)
  | num (n : Int)
  | str (s : String)
  | arr (elems : List Json)
  | obj (fields : List (String × Json))

/-- First-match lookup of a key in an ordered key-value list, as performed
by a serde map deserializer hitting the first occurrence of a key. -/
def lookupField : List (String × α) → String → Option α
  | [], _ => none
  | (k, v) :: rest, name => if k = name then some v else lookupField rest name

/-- A statically known target shape for the decoder: primitive kinds,
homogeneous sequences, and objects with a known field list. -/
inductive Shape where
  | int
  | str
  | bool
  | arrOf (elem : Shape)
  | objOf (fields : List (String × Shape))

mutual

/-- Modelled from the spec: the path-tracking decoder of section 4.1,
realized in the revision matching `src/lib.rs` by running serde
deserialization through `serde_path_to_error` (the `Deserialize` variant
of `Error` declares the resulting path-carrying error; the call site is
absent from the snapshot, whose `src/official/endpoints.rs` predates it).
Type validation walks the shape; a failure at a nested location is
reported with the exact token path to that location. -/
def decode : Shape → Json → Except PathError Unit
  | .int, .num _ => .ok ()
  | .int, _ => .error ⟨[], "invalid type: expected an integer"⟩
  | .str, .str _ => .ok ()
  | .str, _ => .error ⟨[], "invalid type: expected a string"⟩
  | .bool, .bool _ => .ok ()
  | .bool, _ => .error ⟨[], "invalid type: expected a boolean"⟩
  | .arrOf s, .arr elems => decodeElems s elems 0
  | .arrOf _, _ => .error ⟨[], "invalid type: expected a sequence"⟩
  | .objOf fields, .obj kvs => decodeFields fields kvs
  | .objOf _, _ => .error ⟨[], "invalid type: expected a map"⟩
termination_by s j => (sizeOf s, sizeOf j)

/-- Decodes each element of a sequence against the element shape, starting
at index `i`, prefixing the index token on failure. -/
def decodeElems : Shape → List Json → Nat → Except PathError Unit
  | _, [], _ => .ok ()
  | s, e :: es, i =>
    match decode s e with
    | .error pe => .error ⟨.index i :: pe.path, pe.cause⟩
    | .ok _ => decodeElems s es (i + 1)
termination_by s es _ => (sizeOf s, sizeOf es)

/-- Decodes each expected field of an object shape against the payload,
prefixing the field token on failure; a missing required field is an
error located at the object itself. -/
def decodeFields : List (String × Shape) → List (String × Json) → Except PathError Unit
  | [], _ => .ok ()
  | (name, s) :: rest, kvs =>
    match lookupField kvs name with
    | none => .error ⟨[], "missing field " ++ name⟩
    | some v =>
      match decode s v with
      | .error pe => .error ⟨.field name :: pe.path, pe.cause⟩
      | .ok _ => decodeFields rest kvs
termination_by fields kvs => (sizeOf fields, sizeOf kvs)

end

/-- Pairwise distinctness of the keys of a key-value list. -/
def distinctKeys : List (String × α) → Bool
  | [] => true
  | (k, _) :: rest => !(rest.any fun f => f.1 == k) && distinctKeys rest

mutual

/-- Well-formedness of a shape: every object level has pairwise distinct
field names, as is the case for every shape derived from a Rust struct. -/
def Shape.wf : Shape → Bool
  | .int => true
  | .str => true
  | .bool => true
  | .arrOf s => s.wf
  | .objOf fields => distinctKeys fields && Shape.wfFields fields
termination_by s => sizeOf s

/-- Well-formedness of each field shape of an object shape. -/
def Shape.wfFields : List (String × Shape) → Bool
  | [] => true
  | (_, s) :: rest => s.wf && Shape.wfFields rest
termination_by fields => sizeOf fields

end

/-- Resolution of a token path inside a shape, following object field
names and descending through sequence shapes. -/
def shapeAt : Shape → List PathTok → Option Shape
  | s, [] => some s
  | .arrOf s, .index _ :: p => shapeAt s p
  | .objOf fields, .field name :: p =>
    match lookupField fields name with
    | some s => shapeAt s p
    | none => none
  | _, _ => none

/-- Resolution of a token path inside a JSON value. -/
def jsonAt : Json → List PathTok → Option Json
  | j, [] => some j
  | .arr elems, .index i :: p =>
    match elems.get? i with
    | some e => jsonAt e p
    | none => none
  | .obj kvs, .field name :: p =>
    match lookupField kvs name with
    | some v => jsonAt v p
    | none => none
  | _, _ => none

/-- Embeds the error type `Error` from `src/lib.rs`. The response body
bytes are embedded as a `String`, and the external `isahc` and `url`
error payloads as strings. The `Deserialize` variant carries the
`serde_path_to_error` path together with the underlying cause. -/
inductive Error where
  | Deserialize (uri : String) (error : PathError) (bytes : String)
  | Request (error : String)
  | StatusNotOk (uri : String) (status : Nat) (bytes : String)
  | Http (error : String)
  | ParseUrl (error : String)
  | BadBaseUrl

/-- Modelled from the spec: one transport response of section 6, a status
code and the raw body bytes. -/
structure HttpResponse where
  status : Nat
  body : String

/-- The `is_success` test on HTTP status codes: the 2xx range. -/
def statusIsSuccess (status : Nat) : Bool :=
  200 ≤ status && status ≤ 299

/-- Modelled from the spec: the body of the `endpoint!` request macro in
the revision matching `src/lib.rs` (the `src/official/endpoints.rs`
present in this snapshot is an earlier revision that constructs an
`Error::Parsing` variant no longer declared by `src/lib.rs`, and predates
the status check; `src/lib.rs` declares the `StatusNotOk` and
path-carrying `Deserialize` variants that the missing revision
constructs). Exactly one request-response cycle is taken from the front
of the stub transport queue. A non-success status becomes
`Error.StatusNotOk` with the received status and the raw body, with no
further transport use; otherwise the body is parsed (the JSON syntax
layer kept abstract as `parse`) and decoded against the target shape with
path tracking, a failure carrying the path and the raw body. The
unconsumed rest of the transport queue is returned alongside the outcome,
making the absence of retries observable. -/
def endpoint (uri : String) (shape : Shape) (parse : String → Option Json) :
    List HttpResponse → Except Error Json × List HttpResponse
  | [] => (.error (.Request "transport: connection failed"), [])
  | r :: rest =>
    if !statusIsSuccess r.status then
      (.error (.StatusNotOk uri r.status r.body), rest)
    else
      match parse r.body with
      | none => (.error (.Deserialize uri ⟨[], "invalid json syntax"⟩ r.body), rest)
      | some value =>
        match decode shape value with
        | .error pe => (.error (.Deserialize uri pe r.body), rest)
        | .ok _ => (.ok value, rest)

/-- Embeds the compile-time unknown-fields policy selected by the cargo
features described in `src/official/types/mod.rs` and `src/lib.rs`:
`deny-unknown-fields` (strict), `allow-unknown-fields` (lenient), and the
default with neither feature (ignore). -/
inductive Mode where
  | strict
  | lenient
  | ignore
deriving DecidableEq

/-- Embeds `HashAlgorithm` from `src/official/types/files.rs`. The
`Unknown` variant exists only under `allow-unknown-fields`; it is never
produced under the other modes. -/
inductive HashAlgorithm where
  | Sha1
  | Md5
  | Unknown
deriving DecidableEq, Repr

/-- Embeds the `Deserialize_repr` derivation for `HashAlgorithm`: tags 1
and 2 name the known variants; under `allow-unknown-fields` the
`#[serde(other)]` annotation sends every other tag to `Unknown`, and
under the other modes every other tag is a decode failure. -/
def HashAlgorithm.fromRepr (mode : Mode) (tag : Int) : Option HashAlgorithm :=
  if tag = 1 then some .Sha1
  else if tag = 2 then some .Md5
  else if mode = .lenient then some .Unknown
  else none

/-- Embeds the `Serialize_repr` derivation for `HashAlgorithm`; the value
of `Unknown` is `u8::MAX`. -/
def HashAlgorithm.toRepr : HashAlgorithm → Int
  | .Sha1 => 1
  | .Md5 => 2
  | .Unknown => 255

/-- Embeds `CoreStatus` from `src/official/types/core.rs`. The `Unknown`
variant exists only under `allow-unknown-fields`. -/
inductive CoreStatus where
  | Draft
  | Test
  | PendingReview
  | Rejected
  | Approved
  | Live
  | Unknown
deriving DecidableEq, Repr

/-- Embeds the `Deserialize_repr` derivation for `CoreStatus`: tags 1
through 6 name the known variants; under `allow-unknown-fields` the
`#[serde(other)]` annotation sends every other tag to `Unknown`, and
under the other modes every other tag is a decode failure. -/
def CoreStatus.fromRepr (mode : Mode) (tag : Int) : Option CoreStatus :=
  if tag = 1 then some .Draft
  else if tag = 2 then some .Test
  else if tag = 3 then some .PendingReview
  else if tag = 4 then some .Rejected
  else if tag = 5 then some .Approved
  else if tag = 6 then some .Live
  else if mode = .lenient then some .Unknown
  else none

/-- Embeds `FileHash` from `src/official/types/files.rs`: the known
fields `value` and `algo`, and the `other_fields` residual
(`#[serde(flatten)] serde_json::Value`) which exists only under
`allow-unknown-fields` and is `[]` under the other modes. -/
structure FileHash where
  value : String
  algo : HashAlgorithm
  other_fields : List (String × Json)

/-- Embeds the serde-derived deserializer for `FileHash` under the given
mode, over an already-parsed JSON object given as its field list. The
known fields are `value` (a string) and `algo` (a `HashAlgorithm` integer
tag); every other field is a hard error under strict
(`deny_unknown_fields`), captured into the flattened `other_fields` under
lenient, and dropped under ignore. -/
def decodeFileHash (mode : Mode) (kvs : List (String × Json)) : Except PathError FileHash :=
  match mode, kvs.filter (fun f => f.1 != "value" && f.1 != "algo") with
  | .strict, f :: _ => .error ⟨[], "unknown field " ++ f.1⟩
  | m, residual =>
    match lookupField kvs "value" with
    | some (.str v) =>
      (match lookupField kvs "algo" with
       | some (.num tag) =>
         (match HashAlgorithm.fromRepr m tag with
          | some algo => .ok ⟨v, algo, if m = .lenient then residual else []⟩
          | none => .error ⟨[.field "algo"], "invalid value: unknown enum tag"⟩)
       | some _ => .error ⟨[.field "algo"], "invalid type: expected an integer"⟩
       | none => .error ⟨[], "missing field algo"⟩)
    | some _ => .error ⟨[.field "value"], "invalid type: expected a string"⟩
    | none => .error ⟨[], "missing field value"⟩

/-- Embeds the serde-derived serializer for `FileHash`: the known fields
in declaration order, followed by the flattened `other_fields` residual
under `allow-unknown-fields`. -/
def encodeFileHash (mode : Mode) (h : FileHash) : List (String × Json) :=
  ("value", .str h.value) :: ("algo", .num h.algo.toRepr) ::
    (if mode = .lenient then h.other_fields else [])

/-- Embeds `DataResponse` from `src/official/request/response.rs`: the
single known field `data`, and the `other_fields` residual which exists
only under `allow-unknown-fields`. -/
structure DataResponse (T : Type) where
  data : T
  other_fields : List (String × Json)

/-- Embeds the serde-derived deserializer for `DataResponse` under the
given mode, parameterized by the deserializer of the inner `data` value. -/
def decodeDataResponse (mode : Mode) (decodeData : Json → Except PathError T)
    (kvs : List (String × Json)) : Except PathError (DataResponse T) :=
  match mode, kvs.filter (fun f => f.1 != "data") with
  | .strict, f :: _ => .error ⟨[], "unknown field " ++ f.1⟩
  | m, residual =>
    match lookupField kvs "data" with
    | none => .error ⟨[], "missing field data"⟩
    | some dj =>
      match decodeData dj with
      | .error pe => .error ⟨.field "data" :: pe.path, pe.cause⟩
      | .ok d => .ok { data := d, other_fields := if m = .lenient then residual else [] }

/-! ## Helper lemmas -/

/-- The `as usize` cast agrees with `toNat` on the representable range. -/
theorem i64AsUsize_eq_toNat (x : Int) (h0 : 0 ≤ x) (h1 : x < 2 ^ 64) :
    i64AsUsize x = x.toNat := by
  unfold i64AsUsize
  rw [Int.emod_eq_of_lt h0 h1]

/-! ## Claim theorems -/

/-- C1: for every pagination delegate produced by the
`pagination_delegate!` macro (`GamesDelegate`, `ProjectSearchDelegate`,
`ProjectFilesDelegate` are its three instantiations, all sharing this
generic state), `total_items` returns `none` while no fetch has succeeded
(the stored pagination descriptor is `None`, in particular right after
construction), and after a successful fetch it returns the minimum of the
service-wide cap `API_PAGINATION_RESULTS_LIMIT`, which equals 10000, and
the last descriptor's `total_count`. -/
theorem total_items_spec {R E I : Type} :
    API_PAGINATION_RESULTS_LIMIT = 10000
    ∧ (∀ d : Delegate R, d.pagination = none → d.total_items = none)
    ∧ (∀ p : DelegateParams R, (Delegate.new p).total_items = none)
    ∧ (∀ (d : Delegate R) (pager : DelegateParams R → Except E (PageResponse I))
         (r : PageResponse I),
         pager d.params = .ok r →
         0 ≤ r.pagination.total_count → r.pagination.total_count < 2 ^ 64 →
         ((d.next_page pager).2).total_items
           = some (min API_PAGINATION_RESULTS_LIMIT r.pagination.total_count.toNat)) := by
  refine ⟨rfl, ?_, ?_, ?_⟩
  · intro d h
    simp [Delegate.total_items, h]
  · intro p
    simp [Delegate.new, Delegate.total_items]
  · intro d pager r hok h0 h1
    simp [Delegate.next_page, hok, Delegate.total_items, i64AsUsize_eq_toNat _ h0 h1]

/-- Witness for C1 at a concrete delegate and a stub pager reporting
`total_count = 42`. -/
theorem total_items_spec_witness :
    (((Delegate.mk ⟨some 0, ()⟩ (none : Option Pagination)).next_page
        (fun _ => (.ok ⟨[], ⟨0, 50, 0, 42⟩⟩ : Except Unit (PageResponse Unit)))).2).total_items
      = some 42 := by
  have h := (total_items_spec (R := Unit) (E := Unit) (I := Unit)).2.2.2
      (Delegate.mk ⟨some 0, ()⟩ none)
      (fun _ => .ok ⟨[], ⟨0, 50, 0, 42⟩⟩) ⟨[], ⟨0, 50, 0, 42⟩⟩ rfl (by norm_num) (by norm_num)
  simpa using h

/-- C2: on a response whose status is not a success status, the request
path returns `Error.StatusNotOk` carrying the received status code and
the raw response body, and consumes exactly one response from the
transport (the unconsumed remainder is returned untouched: no retry). -/
theorem status_not_ok_spec (uri : String) (shape : Shape) (parse : String → Option Json)
    (r : HttpResponse) (rest : List HttpResponse) :
    statusIsSuccess r.status = false →
    endpoint uri shape parse (r :: rest)
      = (.error (.StatusNotOk uri r.status r.body), rest) := by
  intro h
  simp [endpoint, h]

/-- Witness for C2 at a concrete 404 response. -/
theorem status_not_ok_spec_witness :
    endpoint "https://api.curseforge.com/v1/games" .int (fun _ => none)
        (⟨404, "not found"⟩ :: [⟨200, "1"⟩])
      = (.error (.StatusNotOk "https://api.curseforge.com/v1/games" 404 "not found"),
         [⟨200, "1"⟩]) := by
  exact status_not_ok_spec "https://api.curseforge.com/v1/games" .int (fun _ => none)
    ⟨404, "not found"⟩ [⟨200, "1"⟩] (by decide)

/-- C4: for every `PaginatedStream` state, the lower bound of `size_hint`
is zero; the upper bound is `none` when no request has yet succeeded (the
stored pagination is `None`, in particular right after construction), and
equals the minimum of the constructor-supplied limit and the last known
`total_count` after any successful fetch. -/
theorem size_hint_spec :
    (∀ s : PaginatedStream, (s.size_hint).1 = 0)
    ∧ (∀ limit : Nat, (PaginatedStream.new limit).size_hint = (0, none))
    ∧ (∀ s : PaginatedStream, s.pagination = none → s.size_hint = (0, none))
    ∧ (∀ (s : PaginatedStream) (p : Pagination), s.pagination = some p →
        0 ≤ p.total_count → p.total_count < 2 ^ 64 →
        s.size_hint = (0, some (min s.limit p.total_count.toNat))) := by
  refine ⟨?_, ?_, ?_, ?_⟩
  · intro s
    rcases s with ⟨pg, lim⟩
    cases pg <;> simp [PaginatedStream.size_hint]
  · intro limit
    simp [PaginatedStream.new, PaginatedStream.size_hint]
  · intro s h
    simp [PaginatedStream.size_hint, h]
  · intro s p h h0 h1
    simp [PaginatedStream.size_hint, h, i64AsUsize_eq_toNat _ h0 h1]

/-- Witness for C4 at a stream with limit 100 and a descriptor reporting
`total_count = 7`. -/
theorem size_hint_spec_witness :
    (PaginatedStream.mk (some ⟨0, 50, 7, 7⟩) 100).size_hint = (0, some 7) := by
  have h := size_hint_spec.2.2.2 (PaginatedStream.mk (some ⟨0, 50, 7, 7⟩) 100)
      ⟨0, 50, 7, 7⟩ rfl (by norm_num) (by norm_num)
  simpa using h

/-- C5: `next_page` issues the request with the current params (hence at
the current `next_offset` held in `params.index`); on success it replaces
the stored descriptor with the new page's descriptor and returns exactly
the page's records, leaving the cursor offset untouched; on failure it
leaves the whole delegate state (offset and descriptor) unchanged. -/
theorem next_page_spec {R E I : Type} (d : Delegate R)
    (pager : DelegateParams R → Except E (PageResponse I)) :
    (∀ r : PageResponse I, pager d.params = .ok r →
      d.next_page pager = (.ok r.data, { d with pagination := some r.pagination }))
    ∧ (∀ e : E, pager d.params = .error e → d.next_page pager = (.error e, d))
    ∧ ((d.next_page pager).2).params = d.params := by
  refine ⟨?_, ?_, ?_⟩
  · intro r h
    simp [Delegate.next_page, h]
  · intro e h
    simp [Delegate.next_page, h]
  · unfold Delegate.next_page
    cases pager d.params <;> simp

/-- Witness for C5 at a concrete delegate, exercising both the success
and the failure branch. -/
theorem next_page_spec_witness :
    ((Delegate.mk ⟨some 3, ()⟩ (none : Option Pagination)).next_page
        (fun _ => (.ok ⟨[true], ⟨3, 1, 1, 9⟩⟩ : Except Unit (PageResponse Bool))))
      = (.ok [true], Delegate.mk ⟨some 3, ()⟩ (some ⟨3, 1, 1, 9⟩))
    ∧ ((Delegate.mk ⟨some 3, ()⟩ (some ⟨0, 1, 1, 9⟩)).next_page
        (fun _ => (.error () : Except Unit (PageResponse Bool))))
      = (.error (), Delegate.mk ⟨some 3, ()⟩ (some ⟨0, 1, 1, 9⟩)) := by
  constructor
  · exact (next_page_spec (Delegate.mk ⟨some 3, ()⟩ none)
      (fun _ => .ok ⟨[true], ⟨3, 1, 1, 9⟩⟩)).1 ⟨[true], ⟨3, 1, 1, 9⟩⟩ rfl
  · exact (next_page_spec (Delegate.mk ⟨some 3, ()⟩ (some ⟨0, 1, 1, 9⟩))
      (fun _ => .error ())).2.1 () rfl

/-- C6: the nullable-datetime decoder maps the exact sentinel literal to
an absent value before any parsing is attempted (so the sentinel never
produces a parse error nor a year-1 date, whatever the chrono parser
would do with it); any other string that the parser accepts decodes to
that datetime; any other string that the parser rejects is an error. -/
theorem nullable_datetime_spec {DT : Type} (parse : String → Option DT) :
    nullable_datetime parse "0001-01-01T00:00:00" = .ok none
    ∧ (∀ (s : String) (d : DT), s ≠ "0001-01-01T00:00:00" → parse s = some d →
        nullable_datetime parse s = .ok (some d))
    ∧ (∀ s : String, s ≠ "0001-01-01T00:00:00" → parse s = none →
        nullable_datetime parse s = .error ("invalid datetime " ++ s)) := by
  refine ⟨?_, ?_, ?_⟩
  · simp [nullable_datetime]
  · intro s d hne hp
    simp [nullable_datetime, hne, hp]
  · intro s hne hp
    simp [nullable_datetime, hne, hp]

/-- Witness for C6 with a parser that would happily parse the sentinel to
a year-1 value: the sentinel still decodes to `none`, a distinct parsable
string decodes to `some`, and an unparsable string errors. -/
theorem nullable_datetime_spec_witness :
    nullable_datetime (fun s => if s = "bad" then none else some s.length)
        "0001-01-01T00:00:00" = .ok none
    ∧ nullable_datetime (fun s => if s = "bad" then none else some s.length)
        "2020-01-01T00:00:00" = .ok (some 19)
    ∧ nullable_datetime (fun s => if s = "bad" then none else some s.length)
        "bad" = .error "invalid datetime bad" := by
  refine ⟨(nullable_datetime_spec _).1, ?_, ?_⟩
  · exact (nullable_datetime_spec _).2.1 "2020-01-01T00:00:00" 19 (by decide) (by decide)
  · exact (nullable_datetime_spec _).2.2 "bad" (by decide) (by decide)

/-- C9: every delegate constructor normalizes `params.index` to `Some`
(the caller-supplied offset or zero), `next_page` and `set_offset`
preserve it being `Some`, and therefore the `unwrap` inside `offset`
(embedded as `Option.map`, with a panic embedded as `none`) never
panics on a delegate reachable from `new`. -/
theorem delegate_offset_never_panics {R E I : Type} :
    (∀ p : DelegateParams R, ((Delegate.new p).params.index).isSome = true)
    ∧ (∀ (d : Delegate R) (pager : DelegateParams R → Except E (PageResponse I)),
        (d.params.index).isSome = true →
        (((d.next_page pager).2).params.index).isSome = true)
    ∧ (∀ (d : Delegate R) (v : Nat), (((d.set_offset v).params.index).isSome) = true)
    ∧ (∀ d : Delegate R, (d.params.index).isSome = true → (d.offset).isSome = true) := by
  refine ⟨?_, ?_, ?_, ?_⟩
  · intro p
    rcases p with ⟨idx, rest⟩
    cases idx <;> simp [Delegate.new, Option.or]
  · intro d pager h
    unfold Delegate.next_page
    cases pager d.params <;> simpa using h
  · intro d v
    simp [Delegate.set_offset]
  · intro d h
    simp [Delegate.offset, Option.isSome_map]
    exact h

/-- Witness for C9: a delegate constructed with no caller-supplied index,
run through a fetch and a seek, still has a `Some` index and a
non-panicking `offset`. -/
theorem delegate_offset_never_panics_witness :
    ((((Delegate.new (R := Unit) ⟨none, ()⟩).next_page
        (fun _ => (.error () : Except Unit (PageResponse Unit)))).2).params.index).isSome = true
    ∧ ((Delegate.new (R := Unit) ⟨none, ()⟩).offset).isSome = true := by
  constructor
  · exact (delegate_offset_never_panics (R := Unit) (E := Unit) (I := Unit)).2.1
      (Delegate.new ⟨none, ()⟩) (fun _ => .error ())
      ((delegate_offset_never_panics (R := Unit) (E := Unit) (I := Unit)).1 ⟨none, ()⟩)
  · exact (delegate_offset_never_panics (R := Unit) (E := Unit) (I := Unit)).2.2.2
      (Delegate.new ⟨none, ()⟩)
      ((delegate_offset_never_panics (R := Unit) (E := Unit) (I := Unit)).1 ⟨none, ()⟩)

/-- C10: both nullable-string decoders (`fixes::nullable_string` and the
textually identical `nullable_str` in `game.rs`) map a JSON null (already
`none` after `Option::deserialize`) and the empty string to an absent
value, and every non-empty string to `some` of itself; the empty string
is never surfaced as `some`. -/
theorem nullable_string_spec :
    nullable_string none = none
    ∧ nullable_string (some "") = none
    ∧ (∀ s : String, s ≠ "" → nullable_string (some s) = some s)
    ∧ (∀ maybe : Option String, nullable_str maybe = nullable_string maybe) := by
  refine ⟨rfl, by decide, ?_, fun _ => rfl⟩
  intro s h
  have hempty : s.isEmpty = false := by
    cases h' : s.isEmpty
    · rfl
    · exact absurd ((String.isEmpty_iff s).mp (by simp [h'])) h
  simp [nullable_string, Option.filter, hempty]

/-- Witness for C10 at the non-empty string branch. -/
theorem nullable_string_spec_witness :
    nullable_string (some "forge") = some "forge" := by
  exact nullable_string_spec.2.2.1 "forge" (by decide)

/-- C7: under the lenient mode (`allow-unknown-fields`), a `FileHash`
payload with its two known fields and one extra field decodes
successfully, the extra field is captured in the `other_fields` residual,
and re-encoding reproduces the known fields unchanged and preserves the
extra field. -/
theorem lenient_round_trip (v : String) (tag : Int) (k : String) (x : Json) :
    k ≠ "value" → k ≠ "algo" → (tag = 1 ∨ tag = 2) →
    ∃ h : FileHash,
      decodeFileHash .lenient [("value", .str v), ("algo", .num tag), (k, x)] = .ok h
      ∧ h.other_fields = [(k, x)]
      ∧ encodeFileHash .lenient h = [("value", .str v), ("algo", .num tag), (k, x)] := by
  intro hk1 hk2 htag
  rcases htag with rfl | rfl
  · refine ⟨⟨v, .Sha1, [(k, x)]⟩, ?_, rfl, ?_⟩
    · simp [decodeFileHash, lookupField, hk1, hk2, HashAlgorithm.fromRepr]
    · simp [encodeFileHash, HashAlgorithm.toRepr]
  · refine ⟨⟨v, .Md5, [(k, x)]⟩, ?_, rfl, ?_⟩
    · simp [decodeFileHash, lookupField, hk1, hk2, HashAlgorithm.fromRepr]
    · simp [encodeFileHash, HashAlgorithm.toRepr]

/-- Witness for C7 at a concrete payload with the extra field `extra`. -/
theorem lenient_round_trip_witness :
    ∃ h : FileHash,
      decodeFileHash .lenient [("value", .str "abc123"), ("algo", .num 1), ("extra", .null)]
          = .ok h
      ∧ h.other_fields = [("extra", .null)]
      ∧ encodeFileHash .lenient h
          = [("value", .str "abc123"), ("algo", .num 1), ("extra", .null)] :=
  lenient_round_trip "abc123" 1 "extra" .null (by decide) (by decide) (Or.inl rfl)

/-- C8: under the default ignore mode (neither unknown-fields feature
enabled), a record payload with an unrecognized field decodes
successfully and the field is dropped with no residual captured (shown
for the `FileHash` record and for the `DataResponse` envelope), while an
enumeration tag outside the known set — here any integer outside 1..6 for
`CoreStatus` — still fails to decode. -/
theorem ignore_mode_spec :
    (∀ (v : String) (tag : Int) (k : String) (x : Json) (algo : HashAlgorithm),
      k ≠ "value" → k ≠ "algo" → HashAlgorithm.fromRepr .ignore tag = some algo →
      decodeFileHash .ignore [("value", .str v), ("algo", .num tag), (k, x)]
        = .ok ⟨v, algo, []⟩)
    ∧ (∀ {T : Type} (decodeData : Json → Except PathError T) (j : Json) (d : T)
        (k : String) (x : Json), k ≠ "data" → decodeData j = .ok d →
        decodeDataResponse .ignore decodeData [("data", j), (k, x)] = .ok ⟨d, []⟩)
    ∧ (∀ tag : Int, ¬(1 ≤ tag ∧ tag ≤ 6) → CoreStatus.fromRepr .ignore tag = none) := by
  refine ⟨?_, ?_, ?_⟩
  · intro v tag k x algo hk1 hk2 hfr
    simp [decodeFileHash, lookupField, hk1, hk2, hfr]
  · intro T decodeData j d k x hk hd
    simp [decodeDataResponse, lookupField, hk, hd]
  · intro tag h
    have h1 : tag ≠ 1 := by omega
    have h2 : tag ≠ 2 := by omega
    have h3 : tag ≠ 3 := by omega
    have h4 : tag ≠ 4 := by omega
    have h5 : tag ≠ 5 := by omega
    have h6 : tag ≠ 6 := by omega
    simp [CoreStatus.fromRepr, h1, h2, h3, h4, h5, h6]

/-- Witness for C8: an extra field is dropped from a `FileHash` payload
with no residual, and the out-of-range `CoreStatus` tag 7 fails. -/
theorem ignore_mode_spec_witness :
    decodeFileHash .ignore [("value", .str "abc"), ("algo", .num 2), ("extra", .null)]
      = .ok ⟨"abc", .Md5, []⟩
    ∧ CoreStatus.fromRepr .ignore 7 = none := by
  constructor
  · exact ignore_mode_spec.1 "abc" 2 "extra" .null .Md5 (by decide) (by decide) (by decide)
  · exact ignore_mode_spec.2.2 7 (by omega)

/-- A successful lookup means some entry of the list has the key. -/
theorem lookupField_any {α : Type} :
    ∀ (l : List (String × α)) (n : String) (x : α),
      lookupField l n = some x → (l.any fun f => f.1 == n) = true := by
  intro l
  induction l with
  | nil =>
    intro n x h
    simp [lookupField] at h
  | cons f rest ih =>
    intro n x h
    obtain ⟨key, val⟩ := f
    by_cases hf : key = n
    · simp [hf]
    · rw [lookupField, if_neg hf] at h
      simp [ih n x h]

/-- A field shape found by lookup in a well-formed field list is itself
well-formed. -/
theorem lookupField_wfFields :
    ∀ (fields : List (String × Shape)) (n : String) (s : Shape),
      Shape.wfFields fields = true → lookupField fields n = some s → s.wf = true := by
  intro fields
  induction fields with
  | nil =>
    intro n s _ h
    simp [lookupField] at h
  | cons f rest ih =>
    intro n s hwf h
    obtain ⟨key, val⟩ := f
    rw [Shape.wfFields] at hwf
    simp only [Bool.and_eq_true] at hwf
    by_cases hf : key = n
    · rw [lookupField, if_pos hf] at h
      cases h
      exact hwf.1
    · rw [lookupField, if_neg hf] at h
      exact ih n s hwf.2 h

/-- A failure of the sequence decoder pinpoints one failing element: the
error path starts with the index of that element, and the element fails
on its own with the rest of the path. -/
theorem decodeElems_error_step :
    ∀ (s : Shape) (es : List Json) (i : Nat) (pe : PathError),
      decodeElems s es i = .error pe →
      ∃ k e p', es.get? k = some e ∧ pe.path = .index (i + k) :: p'
        ∧ decode s e = .error ⟨p', pe.cause⟩ := by
  intro s es
  induction es with
  | nil =>
    intro i pe h
    simp [decodeElems] at h
  | cons e es ih =>
    intro i pe h
    rw [decodeElems] at h
    cases hde : decode s e with
    | error pe' =>
      rw [hde] at h
      simp only [Except.error.injEq] at h
      subst h
      refine ⟨0, e, pe'.path, rfl, by simp, by rw [hde]⟩
    | ok u =>
      rw [hde] at h
      obtain ⟨k, e', p', hget, hpath, hdec⟩ := ih (i + 1) pe h
      refine ⟨k + 1, e', p', by simpa using hget, ?_, hdec⟩
      rw [hpath]
      congr 2
      omega

/-- A failure of the object-field decoder is either located at the object
itself (a missing required field) or pinpoints one failing field: the
error path starts with that field name, the name resolves in both the
shape and the payload, and the field value fails on its own with the rest
of the path. Requires the expected field names to be pairwise distinct. -/
theorem decodeFields_error_step :
    ∀ (fields : List (String × Shape)) (kvs : List (String × Json)) (pe : PathError),
      distinctKeys fields = true →
      decodeFields fields kvs = .error pe →
      pe.path = []
      ∨ ∃ name s1 v1 p', pe.path = .field name :: p'
          ∧ lookupField fields name = some s1
          ∧ lookupField kvs name = some v1
          ∧ decode s1 v1 = .error ⟨p', pe.cause⟩ := by
  intro fields
  induction fields with
  | nil =>
    intro kvs pe _ h
    simp [decodeFields] at h
  | cons f rest ih =>
    intro kvs pe hdk h
    obtain ⟨name, s⟩ := f
    rw [decodeFields] at h
    rw [distinctKeys] at hdk
    simp only [Bool.and_eq_true, Bool.not_eq_true'] at hdk
    cases hlk : lookupField kvs name with
    | none =>
      simp only [hlk, Except.error.injEq] at h
      subst h
      left
      rfl
    | some v =>
      simp only [hlk] at h
      cases hde : decode s v with
      | error pe' =>
        simp only [hde, Except.error.injEq] at h
        subst h
        right
        refine ⟨name, s, v, pe'.path, rfl, ?_, hlk, by rw [hde]⟩
        rw [lookupField, if_pos rfl]
      | ok u =>
        simp only [hde] at h
        rcases ih kvs pe hdk.2 h with hl | ⟨name', s1, v1, p', hp, hlf, hlv, hd⟩
        · left
          exact hl
        · right
          have hne : name ≠ name' := by
            intro heq
            have hmem := lookupField_any rest name' s1 hlf
            rw [← heq] at hmem
            rw [hmem] at hdk
            exact absurd hdk.1 (by decide)
          refine ⟨name', s1, v1, p', hp, ?_, hlv, hd⟩
          rw [lookupField, if_neg hne]
          exact hlf

/-- Resolution of the empty path in a shape is the shape itself. -/
theorem shapeAt_nil (s : Shape) : shapeAt s [] = some s := by
  cases s <;> rfl

/-- Resolution of the empty path in a JSON value is the value itself. -/
theorem jsonAt_nil (j : Json) : jsonAt j [] = some j := by
  cases j <;> rfl

/-- A decode failure is located at exactly the path it reports: the
reported path resolves in both the shape and the payload, and the
subvalue it reaches fails against the subshape on its own, with an empty
residual path. -/
theorem decode_error_pinpoints_aux :
    ∀ (p : List PathTok) (shape : Shape) (j : Json) (cause : String),
      shape.wf = true → decode shape j = .error ⟨p, cause⟩ →
      ∃ s v, shapeAt shape p = some s ∧ jsonAt j p = some v
        ∧ decode s v = .error ⟨[], cause⟩ := by
  intro p
  induction p with
  | nil =>
    intro shape j cause _ h
    exact ⟨shape, j, shapeAt_nil shape, jsonAt_nil j, h⟩
  | cons tok p ih =>
    intro shape j cause hwf h
    cases shape with
    | int => cases j <;> simp [decode] at h
    | str => cases j <;> simp [decode] at h
    | bool => cases j <;> simp [decode] at h
    | arrOf s =>
      cases j with
      | arr elems =>
        simp only [decode] at h
        obtain ⟨k, e, p', hget, hpath, hdec⟩ :=
          decodeElems_error_step s elems 0 ⟨tok :: p, cause⟩ h
        simp only at hpath
        injection hpath with htok hpp
        subst htok
        subst hpp
        have hwfs : s.wf = true := by
          rw [Shape.wf] at hwf
          exact hwf
        obtain ⟨s', v', hs, hv, hfail⟩ := ih s e cause hwfs hdec
        have hget' : elems[k]? = some e := by
          simpa [List.get?_eq_getElem?] using hget
        refine ⟨s', v', ?_, ?_, hfail⟩
        · simpa [shapeAt] using hs
        · simp [jsonAt, Nat.zero_add, hget', hv]
      | null => simp [decode] at h
      | bool b => simp [decode] at h
      | num n => simp [decode] at h
      | str s => simp [decode] at h
      | obj kvs => simp [decode] at h
    | objOf fields =>
      cases j with
      | obj kvs =>
        simp only [decode] at h
        rw [Shape.wf] at hwf
        simp only [Bool.and_eq_true] at hwf
        rcases decodeFields_error_step fields kvs ⟨tok :: p, cause⟩ hwf.1 h with
          hl | ⟨name, s1, v1, p', hp, hlf, hlv, hd⟩
        · simp at hl
        · simp only at hp
          injection hp with htok hpp
          subst htok
          subst hpp
          have hwf1 : s1.wf = true := lookupField_wfFields fields name s1 hwf.2 hlf
          obtain ⟨s', v', hs, hv, hfail⟩ := ih s1 v1 cause hwf1 hd
          refine ⟨s', v', ?_, ?_, hfail⟩
          · simp [shapeAt, hlf, hs]
          · simp [jsonAt, hlv, hv]
      | null => simp [decode] at h
      | bool b => simp [decode] at h
      | num n => simp [decode] at h
      | str s => simp [decode] at h
      | arr elems => simp [decode] at h

/-- C3: every decode failure reports the exact dotted/indexed token path
to the nested location that failed type validation: resolving the
reported path in both the target shape and the payload reaches the
precise subvalue whose own validation fails — not merely the top-level
shape. The surrounding fetch wraps the failure as `Error.Deserialize`
carrying the path error together with the raw response bytes. The
request path constructing this error is modelled from the spec, matching
the declarations in `src/lib.rs` (see `endpoint` and `decode`). -/
theorem decode_error_reports_exact_path :
    (∀ (shape : Shape) (j : Json) (pe : PathError),
      shape.wf = true → decode shape j = .error pe →
      ∃ s v, shapeAt shape pe.path = some s ∧ jsonAt j pe.path = some v
        ∧ decode s v = .error ⟨[], pe.cause⟩)
    ∧ (∀ (uri : String) (shape : Shape) (parse : String → Option Json)
        (r : HttpResponse) (rest : List HttpResponse) (j : Json) (pe : PathError),
        statusIsSuccess r.status = true → parse r.body = some j →
        decode shape j = .error pe →
        endpoint uri shape parse (r :: rest)
          = (.error (.Deserialize uri pe r.body), rest)) := by
  constructor
  · intro shape j pe hwf h
    exact decode_error_pinpoints_aux pe.path shape j pe.cause hwf h
  · intro uri shape parse r rest j pe hst hp hd
    simp [endpoint, hst, hp, hd]

/-- Witness for C3 at a payload failing two levels deep: the reported
path has the two tokens leading to the failing field. -/
theorem decode_error_reports_exact_path_witness :
    ∃ s v,
      shapeAt (.objOf [("data", .objOf [("id", .int)])]) [.field "data", .field "id"] = some s
      ∧ jsonAt (.obj [("data", .obj [("id", .str "oops")])]) [.field "data", .field "id"]
          = some v
      ∧ decode s v = .error ⟨[], "invalid type: expected an integer"⟩ :=
  decode_error_reports_exact_path.1
    (.objOf [("data", .objOf [("id", .int)])])
    (.obj [("data", .obj [("id", .str "oops")])])
    ⟨[.field "data", .field "id"], "invalid type: expected an integer"⟩
    (by simp [Shape.wf, Shape.wfFields, distinctKeys])
    (by simp [decode, decodeFields, lookupField])

end Curseforge
